import Mathlib

/-!
Verification of the spreadsheet-sync core (sync.py): cell classifiers,
header locator, row classifier / table builder, and the sync decision.

Cell values are modelled after the data model: a cell is text or a number
(rational numbers stand in for Python int/float; every value the claims
touch is exactly representable).  Short rows stay short; all indexing is
guarded exactly as in the source.
-/

/-- Modelled cell value: text or a number.  Numeric cells cover both Python
int and float source values; integer-valued numbers stringify without a
decimal point, as Python ints do. -/
inductive Cell where
  | str (s : String)
  | num (q : Rat)
deriving Repr, DecidableEq

/-- Python str() of a cell value.  Integer-valued numbers print as Python
ints; for non-integral numbers we print the rational form (the source only
ever stringifies integral cells in the scenarios the claims cover). -/
def pyStr : Cell → String
  | .str s => s
  | .num q => if q.den = 1 then toString q.num else toString q

/-- Python str.lower restricted to the alphabets that occur in the source:
ASCII and Cyrillic (upper-case А..Я and Ё). -/
def charLowerPy (ch : Char) : Char :=
  if 'A' ≤ ch ∧ ch ≤ 'Z' then Char.ofNat (ch.toNat + 32)
  else if 'А' ≤ ch ∧ ch ≤ 'Я' then Char.ofNat (ch.toNat + 32)
  else if ch = 'Ё' then 'ё'
  else ch

/-- Character-by-character string map (kept list-based so every proof can
evaluate it). -/
def strMap (f : Char → Char) (s : String) : String := String.mk (s.toList.map f)

/-- Lower-casing of a whole string (Python str.lower on the relevant alphabets). -/
def pyLower (s : String) : String := strMap charLowerPy s

/-- Whitespace characters removed by Python str.strip. -/
def isSpaceChar (c : Char) : Bool :=
  c = ' ' ∨ c = '\t' ∨ c = '\n' ∨ c = '\r' ∨ c = '\x0b' ∨ c = '\x0c'

/-- Python str.strip: drop whitespace from both ends. -/
def pyTrim (s : String) : String :=
  String.mk (((s.toList.dropWhile isSpaceChar).reverse.dropWhile isSpaceChar).reverse)

/-- Does the pattern match at the head of the list? -/
def subListAt : List Char → List Char → Bool
  | [], _ => true
  | _ :: _, [] => false
  | p :: ps, c :: cs => p == c && subListAt ps cs

/-- Does the pattern occur anywhere in the list? -/
def subListAny (pat : List Char) : List Char → Bool
  | [] => pat.isEmpty
  | c :: cs => subListAt pat (c :: cs) || subListAny pat cs

/-- Python substring test: pat in s. -/
def strContains (s pat : String) : Bool := subListAny pat.toList s.toList

/-- Consume one ASCII digit from the front. -/
def chompDigit : List Char → Option (List Char)
  | ch :: rest => if ch.isDigit then some rest else none
  | [] => none

/-- Consume one dot from the front. -/
def chompDot : List Char → Option (List Char)
  | ch :: rest => if ch = '.' then some rest else none
  | [] => none

/-- Matcher for the anchored regex of the source, two digits, dot, two
digits, dot, four digits, end of string. -/
def matchDateChars (l : List Char) : Bool :=
  match chompDigit l >>= chompDigit >>= chompDot >>= chompDigit >>= chompDigit
      >>= chompDot >>= chompDigit >>= chompDigit >>= chompDigit >>= chompDigit with
  | some [] => true
  | _ => false

/-- Source is_valid_date_cell: text whose trimmed form matches the DD.MM.YYYY
regex; non-text values are never dates. -/
def is_valid_date_cell : Cell → Bool
  | .str v => matchDateChars (pyTrim v).toList
  | .num _ => false

/-- The fixed forbidden label set of the source, verbatim. -/
def forbiddenWords : List String :=
  ["итого", "сотрудники", "s", "m", "дата", "менеджер", "ф.и.о", "оферты"]

/-- Source is_technical_word: stringify, lower-case, trim, then test
membership in the forbidden set or emptiness. -/
def is_technical_word (val : Cell) : Bool :=
  let v := pyTrim (pyLower (pyStr val))
  forbiddenWords.contains v || v == ""

/-- Replace every comma by a dot (Python str.replace used by safe_num). -/
def commaToDot (s : String) : String :=
  strMap (fun c => if c = ',' then '.' else c) s

/-- Take the leading run of ASCII digits. -/
def takeDigits (l : List Char) : List Char × List Char :=
  (l.takeWhile Char.isDigit, l.dropWhile Char.isDigit)

/-- Numeric value of a digit run. -/
def digitsToNat (l : List Char) : Nat :=
  l.foldl (fun a c => a * 10 + (c.toNat - 48)) 0

/-- Python float() on a string, modelled for finite decimal notation:
optional surrounding whitespace, optional sign, digits with an optional
fractional part, optional decimal exponent.  The inf/nan spellings and
digit-group underscores are outside the model (no source data uses them,
and the claims never exercise them). -/
def pyFloat (s : String) : Option Rat :=
  let l := (pyTrim s).toList
  let sl : Int × List Char :=
    match l with
    | '+' :: t => (1, t)
    | '-' :: t => (-1, t)
    | _ => (1, l)
  let sign := sl.1
  let ipRest := takeDigits sl.2
  let ip := ipRest.1
  let fpRest : List Char × List Char :=
    match ipRest.2 with
    | '.' :: t => takeDigits t
    | _ => ([], ipRest.2)
  let fp := fpRest.1
  if ip.isEmpty ∧ fp.isEmpty then none
  else
    let mantNum : Int := sign * ((digitsToNat ip * 10 ^ fp.length + digitsToNat fp : Nat) : Int)
    let mantDen : Nat := 10 ^ fp.length
    match fpRest.2 with
    | [] => some (mkRat mantNum mantDen)
    | 'e' :: t | 'E' :: t =>
      let est : Bool × List Char :=
        match t with
        | '+' :: u => (true, u)
        | '-' :: u => (false, u)
        | _ => (true, t)
      let edRest := takeDigits est.2
      if edRest.1.isEmpty ∨ ¬ edRest.2.isEmpty then none
      else
        let e := digitsToNat edRest.1
        if est.1 then some (mkRat (mantNum * (10 ^ e : Nat)) mantDen)
        else some (mkRat mantNum (mantDen * 10 ^ e))
    | _ => none

/-- Source safe_num: empty text is 0, numbers pass through, other text is
parsed as a float after the decimal comma is replaced by a dot, and any
parse failure yields 0. -/
def safe_num (x : Cell) : Rat :=
  match x with
  | .num q => q
  | .str s =>
    if s = "" then 0
    else
      match pyFloat (commaToDot s) with
      | some q => q
      | none => 0

/-- Header descriptor returned by find_header_row_and_cols, field for field. -/
structure HeaderInfo where
  found : Bool
  rowIdx : Int
  managerCol : Int
  timeCols : List Nat
  totalCol : Int
  warmCol : Int
  warmOffCol : Int
  convCol : Int
deriving Repr, DecidableEq

/-- Initial descriptor of the source (all sentinels). -/
def initHeaderInfo : HeaderInfo :=
  { found := false, rowIdx := -1, managerCol := -1, timeCols := [],
    totalCol := -1, warmCol := -1, warmOffCol := -1, convCol := -1 }

/-- Time-interval header heuristic of the source: the lower-cased text
contains a colon, a dash, and at least one digit. -/
def isTimeCellVal (v : String) : Bool :=
  v.toList.contains ':' && v.toList.contains '-' && v.toList.any Char.isDigit

/-- Cell-level wrapper of the time-interval heuristic (stringify, lower-case). -/
def isTimeCell (cell : Cell) : Bool :=
  isTimeCellVal (pyLower (pyStr cell))

/-- Per-cell update of the descriptor inside find_header_row_and_cols: a
time-interval cell appends its column to timeCols, and the four substring
matches set the four named aggregate columns. -/
def scanCellUpdate (info : HeaderInfo) (c : Nat) (val : String) : HeaderInfo :=
  let isT := isTimeCellVal val
  let info1 := if isT then { info with timeCols := info.timeCols ++ [c] } else info
  let info2 := if strContains val "итого оферт" then { info1 with totalCol := (c : Int) } else info1
  let info3 :=
    if strContains val "zvonobot" ∨ strContains val "тотал теплых" ∨ strContains val "теплых лидов"
    then { info2 with warmCol := (c : Int) } else info2
  let info4 :=
    if strContains val "офферт из теплых" ∨ strContains val "из теплых" ∨ strContains val "от quanta"
    then { info3 with warmOffCol := (c : Int) } else info3
  if strContains val "конверси" then { info4 with convCol := (c : Int) } else info4

/-- Inner loop of find_header_row_and_cols over the cells of one row,
carrying the accumulated descriptor, the has_time flag, the first time
column of the row, and the current column index. -/
def scanCells (info : HeaderInfo) (hasTime : Bool) (ftc : Int) (c : Nat) :
    List Cell → HeaderInfo × Bool × Int
  | [] => (info, hasTime, ftc)
  | cell :: rest =>
    let val := pyLower (pyStr cell)
    let isT := isTimeCellVal val
    let hft : Bool × Int := if isT ∧ hasTime = false then (true, (c : Int)) else (hasTime, ftc)
    scanCells (scanCellUpdate info c val) hft.1 hft.2 (c + 1) rest

/-- Outer loop of find_header_row_and_cols over the scanned rows: the first
row with a time-interval header wins and stops the scan. -/
def findRows (info : HeaderInfo) (r : Nat) : List (List Cell) → HeaderInfo
  | [] => info
  | row :: rest =>
    let res := scanCells info false (-1) 0 row
    if res.2.1 then
      { res.1 with found := true, rowIdx := (r : Int), managerCol := max 0 (res.2.2 - 1) }
    else findRows res.1 (r + 1) rest

/-- Source find_header_row_and_cols: scan at most the first ten rows. -/
def find_header_row_and_cols (data : List (List Cell)) : HeaderInfo :=
  findRows initHeaderInfo 0 (data.take 10)

/-- Source has_data: the total or the warm column of the row, read through
safe_num when present, is positive.  The isinstance guard of the source is
vacuous here because safe_num always returns a number. -/
def has_data (row : List Cell) (info : HeaderInfo) : Bool :=
  let total_val : Rat :=
    if info.totalCol > -1 ∧ info.totalCol < (row.length : Int)
    then safe_num (row.getD info.totalCol.toNat (.str "")) else 0
  let warm_val : Rat :=
    if info.warmCol > -1 ∧ info.warmCol < (row.length : Int)
    then safe_num (row.getD info.warmCol.toNat (.str "")) else 0
  decide (total_val > 0) || decide (warm_val > 0)

/-- Source get_val: 0 for an out-of-range index or a blank cell, otherwise
the raw cell value, unconverted. -/
def get_val (row : List Cell) (idx : Int) : Cell :=
  if idx ≤ -1 ∨ (row.length : Int) ≤ idx then .num 0
  else if row.getD idx.toNat (.str "") = .str "" then .num 0
  else row.getD idx.toNat (.str "")

/-- Manager-column cell of a row, empty when the row is shorter.  The
manager column is nonnegative whenever the header was found, so plain
Nat indexing is faithful. -/
def cellValOf (mcol : Int) (row : List Cell) : Cell :=
  if mcol < (row.length : Int) then row.getD mcol.toNat (.str "") else .str ""

/-- Row-ownership classification of build_db_result, in source priority
order: date row with data, blank continuation row with data under an
established date, or a named manager. -/
def ownerOf (info : HeaderInfo) (row : List Cell) (cur : Option Cell) : Option String :=
  let cell_val := cellValOf info.managerCol row
  let is_date := is_valid_date_cell cell_val
  if is_date = true ∧ has_data row info = true then some "DEPARTMENT_TOTAL"
  else if pyTrim (pyStr cell_val) = "" ∧ cur.isSome = true ∧ has_data row info = true then
    some "DEPARTMENT_TOTAL"
  else if pyTrim (pyStr cell_val) ≠ "" ∧ is_date = false ∧ is_technical_word cell_val = false then
    some (pyTrim (pyStr cell_val))
  else none

/-- Header label of a time column (empty when the header row is short). -/
def timeLabelAt (hdrRow : List Cell) (t : Nat) : Cell :=
  if t < hdrRow.length then hdrRow.getD t (.str "") else .str ""

/-- Offers value of a time column in a data row: the raw cell, or 0 when the
cell is missing or blank. -/
def offersAt (row : List Cell) (t : Nat) : Cell :=
  if t < row.length ∧ row.getD t (.str "") ≠ .str "" then row.getD t (.str "") else .num 0

/-- Emission loop of build_db_result for one owned row: one record per time
column for a named manager, a single ALL_DAY record at the first time
column for a department total. -/
def recordsFor (hdrRow : List Cell) (info : HeaderInfo) (row : List Cell)
    (owner : String) (cur : Cell) : List (List Cell) :=
  info.timeCols.flatMap fun t =>
    let offers := offersAt row t
    let total := get_val row info.totalCol
    let warm_given := get_val row info.warmCol
    let warm_off := get_val row info.warmOffCol
    let conv := get_val row info.convCol
    if owner = "DEPARTMENT_TOTAL" then
      if info.timeCols.head? = some t then
        [[cur, .str owner, .str "ALL_DAY", offers, total, warm_given, warm_off, conv]]
      else []
    else
      [[cur, .str owner, .str (pyStr (timeLabelAt hdrRow t)), offers, total, warm_given,
        warm_off, conv]]

/-- Carried current-date state: a date-formatted manager cell replaces it. -/
def stepDate (mcol : Int) (cur : Option Cell) (row : List Cell) : Option Cell :=
  let cv := cellValOf mcol row
  if is_valid_date_cell cv then some cv else cur

/-- Records contributed by one data row, after the date state was stepped:
nothing unless both an owner and a current date exist. -/
def rowEmission (hdrRow : List Cell) (info : HeaderInfo) (row : List Cell)
    (cur : Option Cell) : List (List Cell) :=
  match ownerOf info row cur, cur with
  | some o, some d => recordsFor hdrRow info row o d
  | _, _ => []

/-- Main loop of build_db_result over the rows beneath the header. -/
def processRows (hdrRow : List Cell) (info : HeaderInfo) :
    Option Cell → List (List Cell) → List (List Cell)
  | _, [] => []
  | cur, row :: rest =>
    let cur1 := stepDate info.managerCol cur row
    rowEmission hdrRow info row cur1 ++ processRows hdrRow info cur1 rest

/-- Fixed header record of the output table. -/
def dbHeaderRecord : List Cell :=
  [.str "Date", .str "Manager", .str "Time_Interval", .str "Offers",
   .str "Total_Day_Offers", .str "Warm_Leads_Given", .str "Offers_From_Warm",
   .str "Conversion_Rate"]

/-- Source build_db_result: find the header, then walk every later row. -/
def build_db_result (data : List (List Cell)) : Except String (List (List Cell)) :=
  let header := find_header_row_and_cols data
  if header.found then
    .ok (dbHeaderRecord ::
      processRows (data.getD header.rowIdx.toNat []) header none
        (data.drop (header.rowIdx.toNat + 1)))
  else .error "Не удалось найти заголовки времени в листе"

/-- Source should_sync_sheet, with the two remote reads abstracted as
parameters: the list of destination sheet titles and the first-column row
count of an existing sheet. -/
def should_sync_sheet (existingTitles : List String) (lastRowEstimate : String → Nat)
    (sheet_name current_month : String) : Bool :=
  let db_name := "DB_" ++ sheet_name
  if (existingTitles.contains db_name) = false then true
  else if strContains sheet_name current_month then true
  else decide (lastRowEstimate db_name ≤ 1)

/-- Numeric-cell predicate, used to state which record fields are numbers. -/
def isNumCell : Cell → Bool
  | .num _ => true
  | .str _ => false

/-- Does a row hold at least one time-interval header cell? -/
def rowHasTime (row : List Cell) : Bool :=
  row.any isTimeCell

/-- Column indices of the time-interval header cells of a row, counted from
an offset (the appended contents of timeCols for that row). -/
def qualIdxsFrom (c : Nat) : List Cell → List Nat
  | [] => []
  | cell :: rest =>
    (if isTimeCell cell then [c] else []) ++ qualIdxsFrom (c + 1) rest

/-- Most recent date-formatted manager-column value in a row block, given the
state carried into the block. -/
def lastDateFrom (mcol : Int) (cur0 : Option Cell) (rows : List (List Cell)) : Option Cell :=
  rows.foldl (stepDate mcol) cur0

/-- Specification-level form of the builder loop: each row of the block
contributes its emission under the most recent date at or above it. -/
def specRows (hdrRow : List Cell) (info : HeaderInfo) (cur0 : Option Cell)
    (rows : List (List Cell)) : List (List Cell) :=
  (List.range rows.length).flatMap fun j =>
    rowEmission hdrRow info (rows.getD j [])
      (lastDateFrom info.managerCol cur0 (rows.take (j + 1)))

/-- Claim-level date pattern: exactly two digits, a dot, two digits, a dot,
and four digits. -/
def specDateChars : List Char → Bool
  | [a, b, c, d, e, f, g, h, i, j] =>
    a.isDigit && b.isDigit && c == '.' && d.isDigit && e.isDigit && f == '.' &&
      g.isDigit && h.isDigit && i.isDigit && j.isDigit
  | _ => false

/-! ## Helper lemmas -/

theorem chompDigit_eq_some {l t : List Char} :
    chompDigit l = some t ↔ ∃ ch, l = ch :: t ∧ ch.isDigit = true := by
  cases l with
  | nil => simp [chompDigit]
  | cons ch rest => by_cases h : ch.isDigit = true <;> simp [chompDigit, h] <;> aesop

theorem chompDot_eq_some {l t : List Char} :
    chompDot l = some t ↔ l = '.' :: t := by
  cases l with
  | nil => simp [chompDot]
  | cons ch rest => by_cases h : ch = '.' <;> simp [chompDot, h] <;> aesop

theorem matchDate_imp_spec {l : List Char} (hm : matchDateChars l = true) :
    specDateChars l = true := by
  have hchain : (chompDigit l >>= chompDigit >>= chompDot >>= chompDigit >>= chompDigit
      >>= chompDot >>= chompDigit >>= chompDigit >>= chompDigit >>= chompDigit) = some [] := by
    revert hm
    unfold matchDateChars
    rcases chompDigit l >>= chompDigit >>= chompDot >>= chompDigit >>= chompDigit
      >>= chompDot >>= chompDigit >>= chompDigit >>= chompDigit >>= chompDigit with _ | ⟨_ | ⟨x, xs⟩⟩ <;> simp
  obtain ⟨t9, h9c, h9⟩ := Option.bind_eq_some.mp hchain
  obtain ⟨t8, h8c, h8⟩ := Option.bind_eq_some.mp h9c
  obtain ⟨t7, h7c, h7⟩ := Option.bind_eq_some.mp h8c
  obtain ⟨t6, h6c, h6⟩ := Option.bind_eq_some.mp h7c
  obtain ⟨t5, h5c, h5⟩ := Option.bind_eq_some.mp h6c
  obtain ⟨t4, h4c, h4⟩ := Option.bind_eq_some.mp h5c
  obtain ⟨t3, h3c, h3⟩ := Option.bind_eq_some.mp h4c
  obtain ⟨t2, h2c, h2⟩ := Option.bind_eq_some.mp h3c
  obtain ⟨t1, h1c, h1⟩ := Option.bind_eq_some.mp h2c
  obtain ⟨cj, ht9, hj⟩ := chompDigit_eq_some.mp h9
  obtain ⟨ci, ht8, hi⟩ := chompDigit_eq_some.mp h8
  obtain ⟨ch8, ht7, hh⟩ := chompDigit_eq_some.mp h7
  obtain ⟨cg, ht6, hg⟩ := chompDigit_eq_some.mp h6
  have ht5 := chompDot_eq_some.mp h5
  obtain ⟨ce, ht4, he⟩ := chompDigit_eq_some.mp h4
  obtain ⟨cd, ht3, hd⟩ := chompDigit_eq_some.mp h3
  have ht2 := chompDot_eq_some.mp h2
  obtain ⟨cb, ht1, hb⟩ := chompDigit_eq_some.mp h1
  obtain ⟨ca, hl, ha⟩ := chompDigit_eq_some.mp h1c
  subst hl ht1 ht2 ht3 ht4 ht5 ht6 ht7 ht8 ht9
  simp [specDateChars, ha, hb, hd, he, hg, hh, hi, hj]

theorem spec_imp_matchDate {l : List Char} (hs : specDateChars l = true) :
    matchDateChars l = true := by
  rcases l with _|⟨a,_|⟨b,_|⟨c,_|⟨d,_|⟨e,_|⟨f,_|⟨g,_|⟨h2,_|⟨i,_|⟨j,_|⟨k,t⟩⟩⟩⟩⟩⟩⟩⟩⟩⟩⟩ <;>
    simp [specDateChars] at hs
  obtain ⟨⟨⟨⟨⟨⟨⟨⟨⟨ha, hb⟩, hc⟩, hd⟩, he⟩, hf⟩, hg⟩, hh⟩, hi⟩, hj⟩ := hs
  subst hc hf
  simp [matchDateChars, chompDigit, chompDot, ha, hb, hd, he, hg, hh, hi, hj]

theorem matchDateChars_eq_spec (l : List Char) : matchDateChars l = specDateChars l := by
  cases hm : matchDateChars l <;> cases hs : specDateChars l <;> try rfl
  · exact absurd (spec_imp_matchDate hs) (by simp [hm])
  · exact (matchDate_imp_spec hm).symm.trans hs

/-! ## Claim theorems, first batch -/

/-- C6: safe_num never fails: it returns 0 on empty text, passes numbers
through unchanged, parses other text after replacing the decimal comma by a
dot with 0 as the fallback for any parse failure, and on the concrete
examples returns 12.5, 0, 0 and 7. -/
theorem safe_num_total_spec :
    (∀ q : Rat, safe_num (.num q) = q) ∧
    (∀ s : String, safe_num (.str s) =
      if s = "" then 0 else (pyFloat (commaToDot s)).getD 0) ∧
    safe_num (.str "12,5") = mkRat 25 2 ∧
    safe_num (.str "") = 0 ∧
    safe_num (.str "abc") = 0 ∧
    safe_num (.num 7) = 7 := by
  refine ⟨fun q => rfl, fun s => ?_, by decide, by decide, by decide, rfl⟩
  by_cases h : s = ""
  · simp [safe_num, h]
  · cases hp : pyFloat (commaToDot s) <;> simp [safe_num, h, hp]

/-- C7: is_valid_date_cell holds exactly on text whose trimmed form is two
digits, a dot, two digits, a dot and four digits; non-text cells are always
rejected; it accepts 05.01.2024 and rejects the three malformed spellings. -/
theorem is_valid_date_cell_spec :
    (∀ s : String, is_valid_date_cell (.str s) = specDateChars (pyTrim s).toList) ∧
    (∀ q : Rat, is_valid_date_cell (.num q) = false) ∧
    is_valid_date_cell (.str "05.01.2024") = true ∧
    is_valid_date_cell (.str "2024-01-05") = false ∧
    is_valid_date_cell (.str "5.1.2024") = false ∧
    is_valid_date_cell (.str "05.01.24") = false :=
  ⟨fun s => matchDateChars_eq_spec (pyTrim s).toList, fun _ => rfl,
    by decide, by decide, by decide, by decide⟩

/-- C9: should_sync_sheet is true exactly when the destination sheet is
missing, or the sheet name contains the current month, or the existing
destination holds at most one row. -/
theorem should_sync_sheet_spec :
    ∀ (titles : List String) (lastRow : String → Nat) (name month : String),
      should_sync_sheet titles lastRow name month =
        (!(titles.contains ("DB_" ++ name)) || strContains name month ||
          decide (lastRow ("DB_" ++ name) ≤ 1)) := by
  intro titles lastRow name month
  unfold should_sync_sheet
  by_cases h1 : titles.contains ("DB_" ++ name) <;>
    by_cases h2 : strContains name month <;> simp [h1, h2]

theorem rowEmission_owner_none {hdr : List Cell} {info : HeaderInfo} {row : List Cell}
    {cur : Option Cell} (h : ownerOf info row cur = none) :
    rowEmission hdr info row cur = [] := by
  unfold rowEmission
  rw [h]

/-! ## Concrete grids used as witnesses and counterexamples -/

/-- Header row with one time-interval column at index 2 and the total-offers
column at index 3 (so the manager column is index 1). -/
def sampleHeaderRow : List Cell :=
  [.str "дата", .str "менеджер", .str "10:00-11:00", .str "итого оферт"]

/-- Grid with the date placed in the manager column (index 1). -/
def gSample : List (List Cell) :=
  [sampleHeaderRow, [.str "", .str "05.01.2024", .num 3, .num 5]]

/-- Grid with the data row exactly as the claim words it: the date at
index 0 and a blank manager-column cell. -/
def gC3stated : List (List Cell) :=
  [sampleHeaderRow, [.str "05.01.2024", .str "", .num 3, .num 5]]

/-- The single data record the claim expects. -/
def c3ClaimedRecord : List Cell :=
  [.str "05.01.2024", .str "DEPARTMENT_TOTAL", .str "ALL_DAY", .num 3, .num 5,
   .num 0, .num 0, .num 0]

/-- Grid whose named-manager row carries text in the total-offers column. -/
def gC5 : List (List Cell) :=
  [sampleHeaderRow, [.str "", .str "05.01.2024"], [.str "", .str "Ivan", .num 2, .str "abc"]]

/-- Header descriptor with manager column 0, for witness instantiations. -/
def infoW : HeaderInfo := { initHeaderInfo with managerCol := 0 }

/-! ## Claim theorems, second batch -/

/-- C3, counterexample: on the grid exactly as the claim describes it (header
at row 0, single time column 10:00-11:00 at index 2, manager column 1, data
row with 05.01.2024 at index 0, a blank manager cell, 3 in the time column
and 5 in the total column) the builder emits no data record at all, so the
output is not the claimed one-record table. -/
theorem build_db_result_c3_as_stated :
    build_db_result gC3stated = .ok [dbHeaderRecord] ∧
    build_db_result gC3stated ≠ .ok [dbHeaderRecord, c3ClaimedRecord] := by
  constructor
  · rfl
  · intro h
    rw [show build_db_result gC3stated = .ok [dbHeaderRecord] from rfl] at h
    simp at h

/-- C3, amended: with the date 05.01.2024 placed in the manager column
(index 1) of the data row, the builder emits exactly the claimed record
05.01.2024, DEPARTMENT_TOTAL, ALL_DAY, 3, 5, 0, 0, 0. -/
theorem build_db_result_c3_amended :
    build_db_result gSample = .ok [dbHeaderRecord, c3ClaimedRecord] := by rfl

/-- C5, counterexample: a named-manager row whose total-offers cell holds the
text abc produces a record whose Total_Day_Offers field is that text, not a
number, so the four aggregate fields are not always numeric. -/
theorem build_db_result_c5_text_total :
    build_db_result gC5 = .ok [dbHeaderRecord,
      [.str "05.01.2024", .str "Ivan", .str "10:00-11:00", .num 2, .str "abc",
       .num 0, .num 0, .num 0]] ∧
    isNumCell (.str "abc") = false := by
  exact ⟨rfl, rfl⟩

/-- C5, amended: both accessors behind the record fields are 0-or-raw.
get_val (record fields 4 to 7) and offersAt (the Offers field 3) return 0
for out-of-range and for blank cells and otherwise pass the raw cell value
through unconverted; every record recordsFor emits carries the four get_val
reads in fields 4 to 7 and an offersAt read of one of the time columns in
field 3; consequently each of these fields is a number whenever its source
cell is numeric, blank or absent, and may be text exactly when the source
cell holds text. -/
theorem get_val_passthrough_spec :
    (∀ (row : List Cell) (idx : Int),
      idx ≤ -1 ∨ (row.length : Int) ≤ idx → get_val row idx = .num 0) ∧
    (∀ (row : List Cell) (idx : Int), ¬(idx ≤ -1 ∨ (row.length : Int) ≤ idx) →
      row.getD idx.toNat (.str "") = .str "" → get_val row idx = .num 0) ∧
    (∀ (row : List Cell) (idx : Int), ¬(idx ≤ -1 ∨ (row.length : Int) ≤ idx) →
      row.getD idx.toNat (.str "") ≠ .str "" →
      get_val row idx = row.getD idx.toNat (.str "")) ∧
    (∀ (row : List Cell) (t : Nat), row.length ≤ t → offersAt row t = .num 0) ∧
    (∀ (row : List Cell) (t : Nat), t < row.length →
      row.getD t (.str "") = .str "" → offersAt row t = .num 0) ∧
    (∀ (row : List Cell) (t : Nat), t < row.length →
      row.getD t (.str "") ≠ .str "" → offersAt row t = row.getD t (.str "")) ∧
    (∀ (hdr : List Cell) (info : HeaderInfo) (row : List Cell) (owner : String) (cur : Cell),
      (recordsFor hdr info row owner cur).all fun rec =>
        rec.getD 4 (.num 0) == get_val row info.totalCol &&
        rec.getD 5 (.num 0) == get_val row info.warmCol &&
        rec.getD 6 (.num 0) == get_val row info.warmOffCol &&
        rec.getD 7 (.num 0) == get_val row info.convCol) ∧
    (∀ (hdr : List Cell) (info : HeaderInfo) (row : List Cell) (owner : String) (cur : Cell)
        (rec : List Cell), rec ∈ recordsFor hdr info row owner cur →
      ∃ t ∈ info.timeCols, rec.getD 3 (.num 0) = offersAt row t) ∧
    (∀ (row : List Cell) (idx : Int),
      isNumCell (row.getD idx.toNat (.str "")) = true → isNumCell (get_val row idx) = true) ∧
    (∀ (row : List Cell) (t : Nat),
      isNumCell (row.getD t (.str "")) = true → isNumCell (offersAt row t) = true) := by
  refine ⟨fun row idx h => ?_, fun row idx h1 h2 => ?_, fun row idx h1 h2 => ?_,
    fun row t h => ?_, fun row t h1 h2 => ?_, fun row t h1 h2 => ?_,
    fun hdr info row owner cur => ?_, fun hdr info row owner cur rec hrec => ?_,
    fun row idx h => ?_, fun row t h => ?_⟩
  · unfold get_val
    rw [if_pos h]
  · unfold get_val
    rw [if_neg h1, if_pos h2]
  · unfold get_val
    rw [if_neg h1, if_neg h2]
  · unfold offersAt
    rw [if_neg]
    rintro ⟨hlt, _⟩
    omega
  · unfold offersAt
    rw [if_neg]
    rintro ⟨_, hne⟩
    exact hne h2
  · unfold offersAt
    rw [if_pos ⟨h1, h2⟩]
  · simp only [recordsFor, List.all_flatMap]
    rw [List.all_eq_true]
    intro t ht
    split_ifs <;> simp
  · simp only [recordsFor, List.mem_flatMap] at hrec
    obtain ⟨t, ht, hrec⟩ := hrec
    refine ⟨t, ht, ?_⟩
    split_ifs at hrec <;> simp at hrec <;> subst hrec <;> rfl
  · by_cases hr : idx ≤ -1 ∨ (row.length : Int) ≤ idx
    · unfold get_val
      rw [if_pos hr]
      rfl
    · cases hcell : row.getD idx.toNat (.str "") with
      | str s =>
        rw [hcell] at h
        simp [isNumCell] at h
      | num q =>
        unfold get_val
        rw [if_neg hr, if_neg (by rw [hcell]; intro hh; cases hh), hcell]
        rfl
  · by_cases hr : t < row.length
    · cases hcell : row.getD t (.str "") with
      | str s =>
        rw [hcell] at h
        simp [isNumCell] at h
      | num q =>
        unfold offersAt
        rw [if_pos ⟨hr, by rw [hcell]; intro hh; cases hh⟩, hcell]
        rfl
    · unfold offersAt
      rw [if_neg]
      · rfl
      rintro ⟨hlt, _⟩
      exact hr hlt

/-- C10: the technical-word filter accepts the single letters s and m in
either case (and anything whose stringified, lower-cased, trimmed form is s
or m), and a row whose manager-column cell is one of those four letters is
classified with no owner, hence emits no record at all. -/
theorem technical_single_letter_spec :
    is_technical_word (.str "S") = true ∧ is_technical_word (.str "s") = true ∧
    is_technical_word (.str "M") = true ∧ is_technical_word (.str "m") = true ∧
    (∀ v : Cell, pyTrim (pyLower (pyStr v)) = "s" ∨ pyTrim (pyLower (pyStr v)) = "m" →
      is_technical_word v = true) ∧
    (∀ (hdr : List Cell) (info : HeaderInfo) (row : List Cell) (cur : Option Cell),
      (cellValOf info.managerCol row = .str "S" ∨ cellValOf info.managerCol row = .str "s" ∨
       cellValOf info.managerCol row = .str "M" ∨ cellValOf info.managerCol row = .str "m") →
      ownerOf info row cur = none ∧ rowEmission hdr info row cur = []) := by
  refine ⟨by decide, by decide, by decide, by decide, fun v h => ?_, fun hdr info row cur h => ?_⟩
  · simp only [is_technical_word]
    rcases h with h | h <;> rw [h] <;> decide
  · have hnone : ownerOf info row cur = none := by
      rcases h with h | h | h | h <;> simp +decide [ownerOf, h]
    exact ⟨hnone, rowEmission_owner_none hnone⟩

theorem get_val_passthrough_witness :
    get_val ([] : List Cell) (-1) = Cell.num 0 ∧
    get_val [Cell.str ""] 0 = Cell.num 0 ∧
    get_val [Cell.str "abc"] 0 = Cell.str "abc" ∧
    offersAt ([] : List Cell) 2 = Cell.num 0 ∧
    offersAt [Cell.str ""] 0 = Cell.num 0 ∧
    offersAt [Cell.str "abc"] 0 = Cell.str "abc" ∧
    (∃ t ∈ (find_header_row_and_cols gSample).timeCols,
      ([Cell.str "05.01.2024", Cell.str "Ivan", Cell.str "10:00-11:00", Cell.num 2,
        Cell.str "abc", Cell.num 0, Cell.num 0, Cell.num 0] : List Cell).getD 3 (.num 0) =
        offersAt [Cell.str "", Cell.str "Ivan", Cell.num 2, Cell.str "abc"] t) ∧
    isNumCell (get_val [Cell.num 5] 0) = true ∧
    isNumCell (offersAt [Cell.num 5] 0) = true :=
  ⟨get_val_passthrough_spec.1 [] (-1) (Or.inl (by decide)),
   get_val_passthrough_spec.2.1 [Cell.str ""] 0 (by decide) (by decide),
   get_val_passthrough_spec.2.2.1 [Cell.str "abc"] 0 (by decide) (by decide),
   get_val_passthrough_spec.2.2.2.1 [] 2 (by decide),
   get_val_passthrough_spec.2.2.2.2.1 [Cell.str ""] 0 (by decide) (by decide),
   get_val_passthrough_spec.2.2.2.2.2.1 [Cell.str "abc"] 0 (by decide) (by decide),
   get_val_passthrough_spec.2.2.2.2.2.2.2.1 sampleHeaderRow (find_header_row_and_cols gSample)
     [Cell.str "", Cell.str "Ivan", Cell.num 2, Cell.str "abc"] "Ivan" (Cell.str "05.01.2024")
     [Cell.str "05.01.2024", Cell.str "Ivan", Cell.str "10:00-11:00", Cell.num 2,
      Cell.str "abc", Cell.num 0, Cell.num 0, Cell.num 0] (by decide),
   get_val_passthrough_spec.2.2.2.2.2.2.2.2.1 [Cell.num 5] 0 (by decide),
   get_val_passthrough_spec.2.2.2.2.2.2.2.2.2 [Cell.num 5] 0 (by decide)⟩

theorem technical_single_letter_witness :
    is_technical_word (Cell.str " S ") = true ∧
    (ownerOf infoW [Cell.str "S"] none = none ∧ rowEmission [] infoW [Cell.str "S"] none = []) :=
  ⟨technical_single_letter_spec.2.2.2.2.1 (Cell.str " S ") (Or.inl (by decide)),
   technical_single_letter_spec.2.2.2.2.2 [] infoW [Cell.str "S"] none (Or.inl (by decide))⟩

/-! ## Header-locator lemmas -/

theorem scanCellUpdate_found (info : HeaderInfo) (c : Nat) (val : String) :
    (scanCellUpdate info c val).found = info.found := by
  simp only [scanCellUpdate]; split_ifs <;> rfl

theorem scanCellUpdate_rowIdx (info : HeaderInfo) (c : Nat) (val : String) :
    (scanCellUpdate info c val).rowIdx = info.rowIdx := by
  simp only [scanCellUpdate]; split_ifs <;> rfl

theorem scanCellUpdate_managerCol (info : HeaderInfo) (c : Nat) (val : String) :
    (scanCellUpdate info c val).managerCol = info.managerCol := by
  simp only [scanCellUpdate]; split_ifs <;> rfl

theorem scanCellUpdate_timeCols (info : HeaderInfo) (c : Nat) (val : String) :
    (scanCellUpdate info c val).timeCols =
      info.timeCols ++ (if isTimeCellVal val then [c] else []) := by
  simp only [scanCellUpdate]; split_ifs <;> simp

theorem scanCells_found (row : List Cell) : ∀ (info : HeaderInfo) (h : Bool) (f : Int) (c : Nat),
    (scanCells info h f c row).1.found = info.found := by
  induction row with
  | nil => intro info h f c; rfl
  | cons cell rest ih =>
    intro info h f c
    simp only [scanCells]
    rw [ih, scanCellUpdate_found]

theorem scanCells_rowIdx (row : List Cell) : ∀ (info : HeaderInfo) (h : Bool) (f : Int) (c : Nat),
    (scanCells info h f c row).1.rowIdx = info.rowIdx := by
  induction row with
  | nil => intro info h f c; rfl
  | cons cell rest ih =>
    intro info h f c
    simp only [scanCells]
    rw [ih, scanCellUpdate_rowIdx]

theorem scanCells_managerCol (row : List Cell) :
    ∀ (info : HeaderInfo) (h : Bool) (f : Int) (c : Nat),
    (scanCells info h f c row).1.managerCol = info.managerCol := by
  induction row with
  | nil => intro info h f c; rfl
  | cons cell rest ih =>
    intro info h f c
    simp only [scanCells]
    rw [ih, scanCellUpdate_managerCol]

theorem scanCells_timeCols (row : List Cell) : ∀ (info : HeaderInfo) (h : Bool) (f : Int) (c : Nat),
    (scanCells info h f c row).1.timeCols = info.timeCols ++ qualIdxsFrom c row := by
  induction row with
  | nil => intro info h f c; simp [qualIdxsFrom, scanCells]
  | cons cell rest ih =>
    intro info h f c
    simp only [scanCells, qualIdxsFrom]
    rw [ih, scanCellUpdate_timeCols, List.append_assoc]
    rfl

theorem scanCells_hasTime (row : List Cell) : ∀ (info : HeaderInfo) (h : Bool) (f : Int) (c : Nat),
    (scanCells info h f c row).2.1 = (h || row.any isTimeCell) := by
  induction row with
  | nil => intro info h f c; simp [scanCells]
  | cons cell rest ih =>
    intro info h f c
    simp only [scanCells]
    rw [ih]
    by_cases ht : isTimeCellVal (pyLower (pyStr cell)) <;> by_cases hh : h = true <;>
      simp [List.any_cons, isTimeCell, ht, hh]

theorem scanCells_ftc (row : List Cell) : ∀ (info : HeaderInfo) (h : Bool) (f : Int) (c : Nat),
    (scanCells info h f c row).2.2 =
      if h = true then f
      else (((qualIdxsFrom c row).head?).map (fun n => (n : Int))).getD f := by
  induction row with
  | nil => intro info h f c; by_cases hh : h = true <;> simp [scanCells, qualIdxsFrom, hh]
  | cons cell rest ih =>
    intro info h f c
    simp only [scanCells]
    rw [ih]
    by_cases ht : isTimeCellVal (pyLower (pyStr cell)) <;> by_cases hh : h = true <;>
      simp [qualIdxsFrom, isTimeCell, ht, hh]

theorem qualIdxsFrom_eq_nil (row : List Cell) : ∀ c : Nat,
    qualIdxsFrom c row = [] ↔ rowHasTime row = false := by
  induction row with
  | nil => intro c; simp [qualIdxsFrom, rowHasTime]
  | cons cell rest ih =>
    intro c
    by_cases ht : isTimeCell cell <;>
      simp [qualIdxsFrom, rowHasTime, List.any_cons, ht, ih (c + 1), rowHasTime] at * <;>
      simp [rowHasTime] at ih <;> exact ih (c + 1)

theorem mem_qualIdxsFrom (row : List Cell) : ∀ (c x : Nat), x ∈ qualIdxsFrom c row → c ≤ x := by
  induction row with
  | nil => intro c x hx; simp [qualIdxsFrom] at hx
  | cons cell rest ih =>
    intro c x hx
    simp only [qualIdxsFrom, List.mem_append] at hx
    rcases hx with hx | hx
    · by_cases ht : isTimeCell cell <;> simp [ht] at hx
      omega
    · exact Nat.le_of_succ_le (ih (c + 1) x hx)

theorem qualIdxsFrom_head_not_mem (row : List Cell) : ∀ (c y : Nat) (ys : List Nat),
    qualIdxsFrom c row = y :: ys → y ∉ ys := by
  induction row with
  | nil => intro c y ys h; simp [qualIdxsFrom] at h
  | cons cell rest ih =>
    intro c y ys h
    by_cases ht : isTimeCell cell <;> simp only [qualIdxsFrom, ht] at h
    · simp at h
      obtain ⟨hy, hys⟩ := h
      intro hmem
      rw [← hys] at hmem
      have := mem_qualIdxsFrom rest (c + 1) y hmem
      omega
    · simp at h
      exact ih (c + 1) y ys h

theorem qualIdxsFrom_head_findIdx (row : List Cell) : ∀ c : Nat,
    (qualIdxsFrom c row).head? =
      if rowHasTime row = true then some (c + row.findIdx isTimeCell) else none := by
  induction row with
  | nil => intro c; simp [qualIdxsFrom, rowHasTime]
  | cons cell rest ih =>
    intro c
    by_cases ht : isTimeCell cell <;>
      simp [qualIdxsFrom, rowHasTime, List.any_cons, List.findIdx_cons, ht, ih (c + 1)]
    split_ifs <;> simp <;> omega

theorem findRows_no_qual (rows : List (List Cell)) : ∀ (info : HeaderInfo) (r : Nat),
    (∀ row ∈ rows, rowHasTime row = false) →
    (findRows info r rows).found = info.found ∧
    (findRows info r rows).rowIdx = info.rowIdx ∧
    (findRows info r rows).managerCol = info.managerCol ∧
    (findRows info r rows).timeCols = info.timeCols := by
  induction rows with
  | nil => intro info r _; exact ⟨rfl, rfl, rfl, rfl⟩
  | cons row rest ih =>
    intro info r hall
    have hrow : rowHasTime row = false := hall row (by simp)
    have hh : (scanCells info false (-1) 0 row).2.1 = false := by
      rw [scanCells_hasTime]
      simpa [rowHasTime] using hrow
    simp only [findRows, hh]
    have ihr := ih (scanCells info false (-1) 0 row).1 (r + 1)
      (fun q hq => hall q (by simp [hq]))
    rw [if_neg Bool.false_ne_true]
    refine ⟨?_, ?_, ?_, ?_⟩
    · rw [ihr.1, scanCells_found]
    · rw [ihr.2.1, scanCells_rowIdx]
    · rw [ihr.2.2.1, scanCells_managerCol]
    · rw [ihr.2.2.2, scanCells_timeCols, (qualIdxsFrom_eq_nil row 0).mpr hrow, List.append_nil]

theorem findRows_found_any (rows : List (List Cell)) : ∀ (info : HeaderInfo) (r : Nat),
    (findRows info r rows).found = (info.found || rows.any rowHasTime) := by
  induction rows with
  | nil => intro info r; simp [findRows]
  | cons row rest ih =>
    intro info r
    simp only [findRows]
    by_cases hr : rowHasTime row
    · have hh : (scanCells info false (-1) 0 row).2.1 = true := by
        rw [scanCells_hasTime]
        simpa [rowHasTime] using hr
      simp only [hh, if_pos rfl]
      have hany : (row :: rest).any rowHasTime = true := by simp [List.any_cons, hr]
      simp [hany]
    · have hh : (scanCells info false (-1) 0 row).2.1 = false := by
        rw [scanCells_hasTime]
        simpa [rowHasTime] using hr
      have hrow0 : row.any isTimeCell = false := by simpa [rowHasTime] using hr
      rw [hh]
      rw [if_neg Bool.false_ne_true, ih, scanCells_found]
      simp [List.any_cons, rowHasTime, hrow0]

theorem exists_first_qual {rows : List (List Cell)} (h : rows.any rowHasTime = true) :
    ∃ k, k < rows.length ∧ rowHasTime (rows.getD k []) = true ∧
      ∀ j, j < k → rowHasTime (rows.getD j []) = false := by
  induction rows with
  | nil => simp at h
  | cons row rest ih =>
    by_cases hr : rowHasTime row
    · exact ⟨0, by simp, by simpa using hr, fun j hj => absurd hj (Nat.not_lt_zero j)⟩
    · have hrest : rest.any rowHasTime = true := by
        simp [List.any_cons] at h
        rcases h with h | h
        · exact absurd (by simpa using h) hr
        · simpa using h
      obtain ⟨k, hk, hq, hmin⟩ := ih hrest
      refine ⟨k + 1, by simpa using Nat.succ_lt_succ hk, by simpa using hq, ?_⟩
      intro j hj
      cases j with
      | zero => simpa using eq_false_of_ne_true hr
      | succ j0 => simpa using hmin j0 (Nat.lt_of_succ_lt_succ hj)

theorem findRows_first_qual (rows : List (List Cell)) :
    ∀ (info : HeaderInfo) (r k : Nat), k < rows.length →
    rowHasTime (rows.getD k []) = true →
    (∀ j, j < k → rowHasTime (rows.getD j []) = false) →
    (findRows info r rows).found = true ∧
    (findRows info r rows).rowIdx = ((r + k : Nat) : Int) ∧
    (findRows info r rows).timeCols = info.timeCols ++ qualIdxsFrom 0 (rows.getD k []) ∧
    (findRows info r rows).managerCol =
      max 0 ((((qualIdxsFrom 0 (rows.getD k [])).head?).map (fun n => (n : Int))).getD (-1) - 1) := by
  induction rows with
  | nil => intro info r k hk; simp at hk
  | cons row rest ih =>
    intro info r k hk hq hmin
    cases k with
    | zero =>
      have hr : rowHasTime row = true := by simpa using hq
      have hh : (scanCells info false (-1) 0 row).2.1 = true := by
        rw [scanCells_hasTime]
        simpa [rowHasTime] using hr
      simp only [findRows, hh, if_pos rfl]
      refine ⟨rfl, by simp, ?_, ?_⟩
      · simpa using scanCells_timeCols row info false (-1) 0
      · have hftc := scanCells_ftc row info false (-1) 0
        rw [if_neg (by simp)] at hftc
        simp only [hftc]
        rfl
    | succ k0 =>
      have hr : rowHasTime row = false := by simpa using hmin 0 (Nat.succ_pos k0)
      have hh : (scanCells info false (-1) 0 row).2.1 = false := by
        rw [scanCells_hasTime]
        simpa [rowHasTime] using hr
      simp only [findRows, hh]
      rw [if_neg Bool.false_ne_true]
      have ihr := ih (scanCells info false (-1) 0 row).1 (r + 1) k0
        (by simpa using Nat.lt_of_succ_lt_succ hk)
        (by simpa using hq)
        (fun j hj => by simpa using hmin (j + 1) (Nat.succ_lt_succ hj))
      refine ⟨ihr.1, ?_, ?_, ?_⟩
      · rw [ihr.2.1]
        congr 1
        omega
      · rw [ihr.2.2.1, scanCells_timeCols,
          (qualIdxsFrom_eq_nil row 0).mpr hr, List.append_nil]
        rfl
      · rw [ihr.2.2.2]
        rfl

theorem findRows_stable : ∀ (k : Nat) (rows rows2 : List (List Cell)) (info : HeaderInfo) (r : Nat),
    rows.take (k + 1) = rows2.take (k + 1) → k < rows.length →
    rowHasTime (rows.getD k []) = true →
    (∀ j, j < k → rowHasTime (rows.getD j []) = false) →
    findRows info r rows = findRows info r rows2 := by
  intro k
  induction k with
  | zero =>
    intro rows rows2 info r htake hk hq _
    cases rows with
    | nil => simp at hk
    | cons row rest =>
      cases rows2 with
      | nil => simp at htake
      | cons row2 rest2 =>
        have hrow : row = row2 := by simpa using htake
        subst hrow
        have hr : rowHasTime row = true := by simpa using hq
        have hh : (scanCells info false (-1) 0 row).2.1 = true := by
          rw [scanCells_hasTime]
          simpa [rowHasTime] using hr
        simp only [findRows, hh, if_pos rfl]
        simp
  | succ k0 ihk =>
    intro rows rows2 info r htake hk hq hmin
    cases rows with
    | nil => simp at hk
    | cons row rest =>
      cases rows2 with
      | nil => simp at htake
      | cons row2 rest2 =>
        simp only [List.take_succ_cons, List.cons.injEq] at htake
        obtain ⟨hrow, htake0⟩ := htake
        subst hrow
        have hr : rowHasTime row = false := by simpa using hmin 0 (Nat.succ_pos k0)
        have hh : (scanCells info false (-1) 0 row).2.1 = false := by
          rw [scanCells_hasTime]
          simpa [rowHasTime] using hr
        simp only [findRows, hh]
        rw [if_neg Bool.false_ne_true, if_neg Bool.false_ne_true]
        exact ihk rest rest2 _ (r + 1) htake0
          (by simpa using Nat.lt_of_succ_lt_succ hk)
          (by simpa using hq)
          (fun j hj => by simpa using hmin (j + 1) (Nat.succ_lt_succ hj))

theorem getD_take_of_lt {α : Type _} {l : List α} {j n : Nat} (h : j < n) (d : α) :
    (l.take n).getD j d = l.getD j d := by
  simp [List.getD_eq_getElem?_getD, List.getElem?_take_of_lt h]

theorem find_eq_findRows (data : List (List Cell)) :
    find_header_row_and_cols data = findRows initHeaderInfo 0 (data.take 10) := rfl

/-- C4: the header scan looks only at rows 0 through min(10, rowCount)-1,
selects the first scanned row holding a time-interval cell, returns the same
rowIdx for any grid agreeing on the rows at or above that first qualifying
row, and reports found = false when no scanned row qualifies. -/
theorem find_header_first_row_spec :
    (∀ (data : List (List Cell)) (k : Nat), k < min 10 data.length →
      rowHasTime (data.getD k []) = true →
      (∀ j, j < k → rowHasTime (data.getD j []) = false) →
      (find_header_row_and_cols data).found = true ∧
      (find_header_row_and_cols data).rowIdx = (k : Int) ∧
      (∀ data2 : List (List Cell), data.take (k + 1) = data2.take (k + 1) →
        (find_header_row_and_cols data2).found = true ∧
        (find_header_row_and_cols data2).rowIdx = (k : Int))) ∧
    (∀ data : List (List Cell),
      (∀ r, r < min 10 data.length → rowHasTime (data.getD r []) = false) →
      (find_header_row_and_cols data).found = false) := by
  have key : ∀ (data : List (List Cell)) (k : Nat), k < min 10 data.length →
      rowHasTime (data.getD k []) = true →
      (∀ j, j < k → rowHasTime (data.getD j []) = false) →
      (find_header_row_and_cols data).found = true ∧
      (find_header_row_and_cols data).rowIdx = (k : Int) := by
    intro data k hk hq hmin
    have hk10 : k < 10 := Nat.lt_of_lt_of_le hk (Nat.min_le_left 10 data.length)
    have hk' : k < (data.take 10).length := by rwa [List.length_take]
    have hq' : rowHasTime ((data.take 10).getD k []) = true := by
      rwa [getD_take_of_lt hk10]
    have hmin' : ∀ j, j < k → rowHasTime ((data.take 10).getD j []) = false := by
      intro j hj
      rw [getD_take_of_lt (by omega)]
      exact hmin j hj
    obtain ⟨hfound, hrowIdx, _, _⟩ :=
      findRows_first_qual (data.take 10) initHeaderInfo 0 k hk' hq' hmin'
    rw [find_eq_findRows]
    exact ⟨hfound, by rw [hrowIdx]; simp⟩
  constructor
  · intro data k hk hq hmin
    refine ⟨(key data k hk hq hmin).1, (key data k hk hq hmin).2, ?_⟩
    intro data2 htake
    have hk10 : k < 10 := Nat.lt_of_lt_of_le hk (Nat.min_le_left 10 data.length)
    have hk' : k < (data.take 10).length := by rwa [List.length_take]
    have hq' : rowHasTime ((data.take 10).getD k []) = true := by
      rwa [getD_take_of_lt hk10]
    have hmin' : ∀ j, j < k → rowHasTime ((data.take 10).getD j []) = false := by
      intro j hj
      rw [getD_take_of_lt (by omega)]
      exact hmin j hj
    have htake' : (data.take 10).take (k + 1) = (data2.take 10).take (k + 1) := by
      have h1 : (data.take 10).take (k + 1) = data.take (k + 1) := by
        rw [List.take_take]
        congr 1
        omega
      have h2 : (data2.take 10).take (k + 1) = data2.take (k + 1) := by
        rw [List.take_take]
        congr 1
        omega
      rw [h1, h2, htake]
    have hstable := findRows_stable k (data.take 10) (data2.take 10) initHeaderInfo 0
      htake' hk' hq' hmin'
    have h1 := key data k hk hq hmin
    rw [find_eq_findRows, ← hstable, ← find_eq_findRows]
    exact h1
  · intro data hall
    have hany : (data.take 10).any rowHasTime = false := by
      rw [Bool.eq_false_iff]
      intro hcontra
      rw [List.any_eq_true] at hcontra
      obtain ⟨x, hx, hpx⟩ := hcontra
      rw [List.mem_iff_getElem] at hx
      obtain ⟨i, hi, hix⟩ := hx
      have hi' : i < min 10 data.length := by rwa [List.length_take] at hi
      have hgd : data.getD i [] = x := by
        have h1 : (data.take 10)[i]? = some x := by
          rw [List.getElem?_eq_getElem hi, hix]
        rw [List.getElem?_take_of_lt (by omega : i < 10)] at h1
        simp [List.getD_eq_getElem?_getD, h1]
      have hfalse := hall i hi'
      rw [hgd] at hfalse
      rw [hfalse] at hpx
      exact absurd hpx (by simp)
    rw [find_eq_findRows, findRows_found_any]
    simp [hany, initHeaderInfo]

theorem find_header_first_row_witness :
    ((find_header_row_and_cols gSample).found = true ∧
     (find_header_row_and_cols gSample).rowIdx = ((0 : Nat) : Int) ∧
     ((find_header_row_and_cols gC3stated).found = true ∧
      (find_header_row_and_cols gC3stated).rowIdx = ((0 : Nat) : Int))) ∧
    (find_header_row_and_cols [[Cell.str "x"]]).found = false :=
  ⟨⟨(find_header_first_row_spec.1 gSample 0 (by decide) (by decide)
      (fun j hj => absurd hj (Nat.not_lt_zero j))).1,
    (find_header_first_row_spec.1 gSample 0 (by decide) (by decide)
      (fun j hj => absurd hj (Nat.not_lt_zero j))).2.1,
    (find_header_first_row_spec.1 gSample 0 (by decide) (by decide)
      (fun j hj => absurd hj (Nat.not_lt_zero j))).2.2 gC3stated (by decide)⟩,
   find_header_first_row_spec.2 [[Cell.str "x"]]
      (fun r hr => by
        have hr0 : r = 0 := by
          simp at hr
          omega
        subst hr0
        decide)⟩

theorem find_found_any (data : List (List Cell)) :
    (find_header_row_and_cols data).found = (data.take 10).any rowHasTime := by
  rw [find_eq_findRows, findRows_found_any]
  simp [initHeaderInfo]

/-- C8: timeCols is non-empty exactly when header detection succeeded, and on
success managerCol equals max(0, c - 1) where c is the leftmost time-interval
column index of the header row. -/
theorem header_info_invariant_spec (data : List (List Cell)) :
    ((find_header_row_and_cols data).timeCols ≠ [] ↔
      (find_header_row_and_cols data).found = true) ∧
    ((find_header_row_and_cols data).found = true →
      (data.getD (find_header_row_and_cols data).rowIdx.toNat []).findIdx isTimeCell <
        (data.getD (find_header_row_and_cols data).rowIdx.toNat []).length ∧
      (find_header_row_and_cols data).managerCol =
        max 0 (((data.getD (find_header_row_and_cols data).rowIdx.toNat []).findIdx
          isTimeCell : Int) - 1)) := by
  have main : (find_header_row_and_cols data).found = true →
      (find_header_row_and_cols data).timeCols ≠ [] ∧
      (data.getD (find_header_row_and_cols data).rowIdx.toNat []).findIdx isTimeCell <
        (data.getD (find_header_row_and_cols data).rowIdx.toNat []).length ∧
      (find_header_row_and_cols data).managerCol =
        max 0 (((data.getD (find_header_row_and_cols data).rowIdx.toNat []).findIdx
          isTimeCell : Int) - 1) := by
    intro hfound
    have hany : (data.take 10).any rowHasTime = true := by
      rw [← find_found_any]
      exact hfound
    obtain ⟨k, hk, hq, hmin⟩ := exists_first_qual hany
    obtain ⟨_, hrowIdx, htc, hmc⟩ :=
      findRows_first_qual (data.take 10) initHeaderInfo 0 k hk hq hmin
    have hk10 : k < 10 := by
      rw [List.length_take] at hk
      omega
    have hgd : (data.take 10).getD k [] = data.getD k [] := getD_take_of_lt hk10 []
    have hIdxNat : (find_header_row_and_cols data).rowIdx.toNat = k := by
      rw [find_eq_findRows, hrowIdx]
      simp
    rw [hIdxNat]
    have hrow : rowHasTime (data.getD k []) = true := by rwa [hgd] at hq
    have hhead : (qualIdxsFrom 0 (data.getD k [])).head? =
        some ((data.getD k []).findIdx isTimeCell) := by
      rw [qualIdxsFrom_head_findIdx, if_pos hrow]
      simp
    refine ⟨?_, ?_, ?_⟩
    · rw [find_eq_findRows, htc, hgd]
      simp only [initHeaderInfo, List.nil_append, ne_eq]
      intro hnil
      rw [(qualIdxsFrom_eq_nil (data.getD k []) 0).mp hnil] at hrow
      simp at hrow
    · have hex : ∃ x ∈ data.getD k [], isTimeCell x = true := by
        rw [← List.any_eq_true]
        exact hrow
      exact List.findIdx_lt_length_of_exists hex
    · rw [find_eq_findRows, hmc, hgd, hhead]
      simp
  constructor
  · constructor
    · intro htc
      by_contra hnf
      have hfound : (find_header_row_and_cols data).found = false :=
        eq_false_of_ne_true hnf
      have hany : (data.take 10).any rowHasTime = false := by
        rw [← find_found_any]
        exact hfound
      have hall : ∀ row ∈ data.take 10, rowHasTime row = false := by
        intro row hrow
        by_contra hc
        have : (data.take 10).any rowHasTime = true := by
          rw [List.any_eq_true]
          exact ⟨row, hrow, by simpa using hc⟩
        rw [hany] at this
        simp at this
      have := (findRows_no_qual (data.take 10) initHeaderInfo 0 hall).2.2.2
      rw [find_eq_findRows] at htc
      exact htc (this.trans rfl)
    · intro hfound
      exact (main hfound).1
  · intro hfound
    exact (main hfound).2

theorem header_info_invariant_witness :
    ((find_header_row_and_cols gSample).timeCols ≠ [] ↔
      (find_header_row_and_cols gSample).found = true) ∧
    ((gSample.getD (find_header_row_and_cols gSample).rowIdx.toNat []).findIdx isTimeCell <
        (gSample.getD (find_header_row_and_cols gSample).rowIdx.toNat []).length ∧
      (find_header_row_and_cols gSample).managerCol =
        max 0 (((gSample.getD (find_header_row_and_cols gSample).rowIdx.toNat []).findIdx
          isTimeCell : Int) - 1)) :=
  ⟨(header_info_invariant_spec gSample).1, (header_info_invariant_spec gSample).2 (by decide)⟩

/-! ## Builder-loop lemmas -/

theorem processRows_eq_specRows (hdr : List Cell) (info : HeaderInfo) :
    ∀ (rows : List (List Cell)) (cur : Option Cell),
      processRows hdr info cur rows = specRows hdr info cur rows := by
  intro rows
  induction rows with
  | nil => intro cur; rfl
  | cons row rest ih =>
    intro cur
    show rowEmission hdr info row (stepDate info.managerCol cur row) ++
        processRows hdr info (stepDate info.managerCol cur row) rest =
        specRows hdr info cur (row :: rest)
    rw [ih]
    simp only [specRows, List.length_cons, List.range_succ_eq_map, List.flatMap_cons,
      List.flatMap_map]
    rfl

/-- C2: with a detected header, the built table is the header record followed
by, for each later row in order, that row's emission under the most recent
date-formatted manager-column value at or above it (none before the first
date, so such rows emit nothing), and every emitted record carries exactly
that date in its Date field. -/
theorem build_db_result_date_invariant (data : List (List Cell))
    (hf : (find_header_row_and_cols data).found = true) :
    build_db_result data = .ok (dbHeaderRecord ::
      specRows (data.getD (find_header_row_and_cols data).rowIdx.toNat [])
        (find_header_row_and_cols data) none
        (data.drop ((find_header_row_and_cols data).rowIdx.toNat + 1))) ∧
    (∀ (hdr : List Cell) (info : HeaderInfo) (row : List Cell) (o : String) (d : Cell),
      (recordsFor hdr info row o d).all fun rec => rec.getD 0 (.num 0) == d) := by
  constructor
  · simp only [build_db_result, hf, if_true]
    rw [processRows_eq_specRows]
  · intro hdr info row o d
    simp only [recordsFor, List.all_flatMap]
    rw [List.all_eq_true]
    intro t ht
    split_ifs <;> simp

theorem build_db_result_date_invariant_witness :
    (find_header_row_and_cols gSample).found = true ∧
    (build_db_result gSample = .ok (dbHeaderRecord ::
      specRows (gSample.getD (find_header_row_and_cols gSample).rowIdx.toNat [])
        (find_header_row_and_cols gSample) none
        (gSample.drop ((find_header_row_and_cols gSample).rowIdx.toNat + 1))) ∧
    (∀ (hdr : List Cell) (info : HeaderInfo) (row : List Cell) (o : String) (d : Cell),
      (recordsFor hdr info row o d).all fun rec => rec.getD 0 (.num 0) == d)) :=
  ⟨by decide, build_db_result_date_invariant gSample (by decide)⟩

theorem flatMap_pure_eq_map {α β : Type _} (f : α → β) :
    ∀ l : List α, (l.flatMap fun x => [f x]) = l.map f := by
  intro l
  induction l with
  | nil => rfl
  | cons x xs ih => simp [List.flatMap_cons, ih]

theorem flatMap_first_only {β : Type _} (t0 : Nat) (ts : List Nat) (hnm : t0 ∉ ts)
    (g : Nat → List β) :
    ((t0 :: ts).flatMap fun t => if (t0 :: ts).head? = some t then g t else []) = g t0 := by
  simp only [List.head?_cons, List.flatMap_cons, if_true]
  have hnil : (ts.flatMap fun t => if some t0 = some t then g t else []) = [] := by
    rw [List.flatMap_eq_nil_iff]
    intro t ht
    rw [if_neg]
    intro h
    exact hnm (by rw [Option.some.inj h]; exact ht)
  rw [hnil, List.append_nil]

theorem recordsFor_dept (hdr : List Cell) (info : HeaderInfo) (row : List Cell) (cur : Cell)
    (t0 : Nat) (ts : List Nat) (htc : info.timeCols = t0 :: ts) (hnm : t0 ∉ ts) :
    recordsFor hdr info row "DEPARTMENT_TOTAL" cur =
      [[cur, .str "DEPARTMENT_TOTAL", .str "ALL_DAY", offersAt row t0,
        get_val row info.totalCol, get_val row info.warmCol, get_val row info.warmOffCol,
        get_val row info.convCol]] := by
  simp only [recordsFor, htc]
  simp only [if_true]
  exact flatMap_first_only t0 ts hnm _

theorem recordsFor_manager (hdr : List Cell) (info : HeaderInfo) (row : List Cell)
    (cur : Cell) (owner : String) (ho : owner ≠ "DEPARTMENT_TOTAL") :
    recordsFor hdr info row owner cur =
      info.timeCols.map fun t =>
        [cur, .str owner, .str (pyStr (timeLabelAt hdr t)), offersAt row t,
         get_val row info.totalCol, get_val row info.warmCol, get_val row info.warmOffCol,
         get_val row info.convCol] := by
  simp only [recordsFor, if_neg ho]
  exact flatMap_pure_eq_map _ _

/-- C1: with a detected header, the table is built from per-row emissions in
which a DEPARTMENT_TOTAL row contributes exactly one record, labelled
ALL_DAY with Offers read from the first time column, while a named-manager
row contributes one record per time column, labelled with that column's
header-row cell. -/
theorem dept_total_and_manager_emission_spec (data : List (List Cell))
    (hf : (find_header_row_and_cols data).found = true) :
    (build_db_result data = .ok (dbHeaderRecord ::
      processRows (data.getD (find_header_row_and_cols data).rowIdx.toNat [])
        (find_header_row_and_cols data) none
        (data.drop ((find_header_row_and_cols data).rowIdx.toNat + 1)))) ∧
    (∀ (row : List Cell) (cur : Cell),
      recordsFor (data.getD (find_header_row_and_cols data).rowIdx.toNat [])
          (find_header_row_and_cols data) row "DEPARTMENT_TOTAL" cur =
        [[cur, .str "DEPARTMENT_TOTAL", .str "ALL_DAY",
          offersAt row ((find_header_row_and_cols data).timeCols.headD 0),
          get_val row (find_header_row_and_cols data).totalCol,
          get_val row (find_header_row_and_cols data).warmCol,
          get_val row (find_header_row_and_cols data).warmOffCol,
          get_val row (find_header_row_and_cols data).convCol]]) ∧
    (∀ (row : List Cell) (cur : Cell) (owner : String), owner ≠ "DEPARTMENT_TOTAL" →
      recordsFor (data.getD (find_header_row_and_cols data).rowIdx.toNat [])
          (find_header_row_and_cols data) row owner cur =
        (find_header_row_and_cols data).timeCols.map fun t =>
          [cur, .str owner,
           .str (pyStr (timeLabelAt
             (data.getD (find_header_row_and_cols data).rowIdx.toNat []) t)),
           offersAt row t,
           get_val row (find_header_row_and_cols data).totalCol,
           get_val row (find_header_row_and_cols data).warmCol,
           get_val row (find_header_row_and_cols data).warmOffCol,
           get_val row (find_header_row_and_cols data).convCol]) := by
  have hany : (data.take 10).any rowHasTime = true := by
    rw [← find_found_any]
    exact hf
  obtain ⟨k, hk, hq, hmin⟩ := exists_first_qual hany
  obtain ⟨_, hrowIdx, htc, _⟩ :=
    findRows_first_qual (data.take 10) initHeaderInfo 0 k hk hq hmin
  have hk10 : k < 10 := by
    rw [List.length_take] at hk
    omega
  have hgd : (data.take 10).getD k [] = data.getD k [] := getD_take_of_lt hk10 []
  have hrow : rowHasTime (data.getD k []) = true := by rwa [hgd] at hq
  have htc' : (find_header_row_and_cols data).timeCols = qualIdxsFrom 0 (data.getD k []) := by
    rw [find_eq_findRows, htc, hgd]
    simp [initHeaderInfo]
  refine ⟨?_, ?_, ?_⟩
  · simp only [build_db_result, hf, if_true]
  · intro row cur
    cases hqi : qualIdxsFrom 0 (data.getD k []) with
    | nil =>
      rw [(qualIdxsFrom_eq_nil (data.getD k []) 0).mp hqi] at hrow
      simp at hrow
    | cons t0 ts =>
      have hnm := qualIdxsFrom_head_not_mem (data.getD k []) 0 t0 ts hqi
      have htc2 : (find_header_row_and_cols data).timeCols = t0 :: ts := by
        rw [htc', hqi]
      rw [recordsFor_dept _ _ _ _ t0 ts htc2 hnm, htc2]
      rfl
  · intro row cur owner ho
    exact recordsFor_manager _ _ _ _ _ ho

theorem dept_total_and_manager_emission_witness :
    (find_header_row_and_cols gSample).found = true ∧
    ((build_db_result gSample = .ok (dbHeaderRecord ::
      processRows (gSample.getD (find_header_row_and_cols gSample).rowIdx.toNat [])
        (find_header_row_and_cols gSample) none
        (gSample.drop ((find_header_row_and_cols gSample).rowIdx.toNat + 1)))) ∧
    (∀ (row : List Cell) (cur : Cell),
      recordsFor (gSample.getD (find_header_row_and_cols gSample).rowIdx.toNat [])
          (find_header_row_and_cols gSample) row "DEPARTMENT_TOTAL" cur =
        [[cur, .str "DEPARTMENT_TOTAL", .str "ALL_DAY",
          offersAt row ((find_header_row_and_cols gSample).timeCols.headD 0),
          get_val row (find_header_row_and_cols gSample).totalCol,
          get_val row (find_header_row_and_cols gSample).warmCol,
          get_val row (find_header_row_and_cols gSample).warmOffCol,
          get_val row (find_header_row_and_cols gSample).convCol]]) ∧
    (∀ (row : List Cell) (cur : Cell) (owner : String), owner ≠ "DEPARTMENT_TOTAL" →
      recordsFor (gSample.getD (find_header_row_and_cols gSample).rowIdx.toNat [])
          (find_header_row_and_cols gSample) row owner cur =
        (find_header_row_and_cols gSample).timeCols.map fun t =>
          [cur, .str owner,
           .str (pyStr (timeLabelAt
             (gSample.getD (find_header_row_and_cols gSample).rowIdx.toNat []) t)),
           offersAt row t,
           get_val row (find_header_row_and_cols gSample).totalCol,
           get_val row (find_header_row_and_cols gSample).warmCol,
           get_val row (find_header_row_and_cols gSample).warmOffCol,
           get_val row (find_header_row_and_cols gSample).convCol])) :=
  ⟨by decide, dept_total_and_manager_emission_spec gSample (by decide)⟩
